import Mathlib

/-! # Device discovery responders (TCP and UDP)

A shallow embedding of `tcp_discover/tcp_server/main/tcp_server.c` and
`udp_discover/main/udp_discover.c`.

* Memory buffers are lists of bytes (`List Nat`); a read or a write outside a
  buffer yields `none`, which the tasks report as the event `fault`.
* Every call into the socket layer takes its result from the environment: the
  results are inputs of the embedded functions, and the calls the program makes
  are recorded as a list of events.
* The tasks loop forever; the embedded tasks run for as long as the environment
  supplies results and stop (blocked in the pending call) when the supply ends.
* `strcmp`, `strlen` and `sprintf` are the functions of the C library; the
  macros `portTICK_RATE_MS` and `portTICK_PERIOD_MS` of the RTOS are parameters,
  and `MAC2STR(a)` is read as the six bytes `(a)[0]` to `(a)[5]`.
-/

namespace DeviceDiscover

/-! ## C strings -/

/-- The bytes of a C string literal, without its terminating NUL. -/
def cbytes (s : String) : List Nat := s.toList.map Char.toNat

/-- The storage of a C string literal: its bytes followed by the terminating NUL. -/
def cliteral (s : String) : List Nat := cbytes s ++ [0]

/-- The loop of libc `strcmp`:
`while (*s1 && *s1 == *s2) { s1++; s2++; } return *s1 - *s2;`.
The two lists are the storage from the current pointers to the end of each
object and `i` is the offset of `s1` from the start of its buffer. The result
is the returned difference together with the offset of the last byte of `s1`
that was read; a read past the end of either object gives `none`. -/
def strcmp_loop : List Nat → List Nat → Nat → Option (Int × Nat)
  | c :: s1, d :: s2, i =>
    if c ≠ 0 ∧ c = d then strcmp_loop s1 s2 (i + 1)
    else some ((c : Int) - (d : Int), i)
  | _, _, _ => none

/-- The value of `strcmp(s1, s2)`, `none` when the comparison leaves a buffer. -/
def strcmp (s1 s2 : List Nat) : Option Int :=
  (strcmp_loop s1 s2 0).map Prod.fst

/-- `strlen`: the number of bytes before the first NUL; `none` when the buffer
holds no NUL. -/
def strlen : List Nat → Option Nat
  | [] => none
  | c :: s => if c = 0 then some 0 else (strlen s).map (· + 1)

/-- A store `buf[i] = v`; `none` when `i` is outside the buffer. -/
def store (buf : List Nat) (i : Nat) (v : Nat) : Option (List Nat) :=
  if i < buf.length then some (buf.set i v) else none

/-- The effect of `recv`/`recvfrom` on the buffer handed to it: the received
bytes, at most `cap` of them, replace the start of the buffer. -/
def recv_into (buf : List Nat) (cap : Nat) (data : List Nat) : List Nat :=
  data.take cap ++ buf.drop (data.take cap).length

/-- The request both responders answer, `"Are You ESP32 Device?"`. -/
def challenge : List Nat := cbytes "Are You ESP32 Device?"

/-- The storage of the literal `"Are You ESP32 Device?"`. -/
def challenge_literal : List Nat := cliteral "Are You ESP32 Device?"

/-! ## `udp_discover.c` -/

/-- `#define NOTICE_UDP_PORT 7889` -/
def NOTICE_UDP_PORT : Nat := 7889
/-- `#define NOTICE_TCP_PORT 8899` -/
def NOTICE_TCP_PORT : Nat := 8899
/-- `#define NOTICE_UDP_BUF_SIZE (64)` -/
def NOTICE_UDP_BUF_SIZE : Nat := 64
/-- `#define NOTICE_UDP_RETRY_COUNT  (3)` -/
def NOTICE_UDP_RETRY_COUNT : Nat := 3

/-- A peer address as `recvfrom` reports it. -/
structure sockaddr_in where
  sin_addr : Nat
  sin_port : Nat
deriving DecidableEq, Repr

/-- The calls `notice_udp_server_create` makes, with their results. -/
inductive SetupEv
  | socket (ret : Int)
  | bind (sockfd ret : Int)
  | setsockopt (sockfd ret : Int)
  | close (sockfd : Int)
deriving DecidableEq, Repr

/-- The block at label `ERR_EXIT` of `notice_udp_server_create`: the socket is
closed unless `sockfd` is `-1`. -/
def ERR_EXIT (sockfd : Int) : List SetupEv :=
  if sockfd ≠ -1 then [SetupEv.close sockfd] else []

/-- Function `notice_udp_server_create`. The list holds the results of the
successive `socket`, `bind` and `setsockopt` calls, in call order (the result
of `close` only feeds a debug log and is not drawn from the list). The value
is the calls made and the returned descriptor, `none` while the function is
still inside its retry loop when the results end. All three error tests of
the source read `sockfd`. -/
def notice_udp_server_create : List Int → List SetupEv × Option Int
  | [] => ([], none)
  | s :: rest =>
    let sockfd := s
    if sockfd < 0 then
      let r := notice_udp_server_create rest
      (SetupEv.socket s :: ERR_EXIT sockfd ++ r.1, r.2)
    else
      match rest with
      | [] => ([SetupEv.socket s], none)
      | b :: rest =>
        if sockfd < 0 then
          let r := notice_udp_server_create rest
          (SetupEv.socket s :: SetupEv.bind sockfd b :: ERR_EXIT sockfd ++ r.1, r.2)
        else
          match rest with
          | [] => ([SetupEv.socket s, SetupEv.bind sockfd b], none)
          | o :: rest =>
            if sockfd < 0 then
              let r := notice_udp_server_create rest
              (SetupEv.socket s :: SetupEv.bind sockfd b :: SetupEv.setsockopt sockfd o ::
                ERR_EXIT sockfd ++ r.1, r.2)
            else
              ([SetupEv.socket s, SetupEv.bind sockfd b, SetupEv.setsockopt sockfd o],
                some sockfd)

/-- Conversion `%02x` of `printf` for an unsigned argument: lower-case
hexadecimal digits, padded with zeros on the left to at least two characters. -/
def fmt_02x (n : Nat) : List Char := List.leftpad 2 '0' (Nat.toDigits 16 n)

/-- Conversion `%d` of `printf` for a non-negative argument. -/
def fmt_d (n : Nat) : List Char := Nat.toDigits 10 n

/-- The text produced by
`sprintf(udp_server_buf, "ESP32 MAC:%02x%02x%02x%02x%02x%02x TCP:%d",
MAC2STR(root_mac), NOTICE_TCP_PORT)`, where `MAC2STR(a)` stands for
`(a)[0], (a)[1], (a)[2], (a)[3], (a)[4], (a)[5]` and `root_mac` is a
`uint8_t[6]`. -/
def discovery_reply (root_mac : Fin 6 → Fin 256) : List Char :=
  "ESP32 MAC:".toList ++ fmt_02x (root_mac 0) ++ fmt_02x (root_mac 1) ++ fmt_02x (root_mac 2)
    ++ fmt_02x (root_mac 3) ++ fmt_02x (root_mac 4) ++ fmt_02x (root_mac 5)
    ++ " TCP:".toList ++ fmt_d NOTICE_TCP_PORT

/-- The store performed by `sprintf(buf, ...)`: the text and its terminating NUL
replace the start of the buffer; `none` when they do not fit. -/
def sprintf_into (buf : List Nat) (text : List Char) : Option (List Nat) :=
  let bytes := text.map Char.toNat ++ [0]
  if bytes.length ≤ buf.length then some (bytes ++ buf.drop bytes.length) else none

/-- What the UDP task does that is visible from outside. -/
inductive UdpEv
  | recvfrom (ret : Int)
  | vTaskDelay (ticks : Nat)
  | sendto (data : List Nat) (dest : sockaddr_in) (ret : Int)
  | fault
deriving DecidableEq, Repr

/-- The loop
`for (int i = 0, delay_time_ms = 0; i < NOTICE_UDP_RETRY_COUNT; ++i, delay_time_ms += delay_time_ms)`
of `notice_udp_task`, entered at the loop test with the current `i` and
`delay_time_ms`. `sendto_ret k` is the result of the `sendto` call made when
`i = k`; `n` bounds the number of iterations still to run. -/
def send_loop (portTICK_RATE_MS : Nat) (udp_server_buf : List Nat) (from_addr : sockaddr_in)
    (sendto_ret : Nat → Int) : Nat → Nat → Nat → List UdpEv
  | 0, _, _ => []
  | n + 1, i, delay_time_ms =>
    if i < NOTICE_UDP_RETRY_COUNT then
      let delayed := delay_time_ms
      let delay_time_ms := if i = 0 then 10 / portTICK_RATE_MS else delay_time_ms
      match strlen udp_server_buf with
      | none => [UdpEv.vTaskDelay delayed, UdpEv.fault]
      | some len =>
        UdpEv.vTaskDelay delayed
          :: UdpEv.sendto (udp_server_buf.take len) from_addr (sendto_ret i)
          :: (if sendto_ret i ≤ 0 then []
              else send_loop portTICK_RATE_MS udp_server_buf from_addr sendto_ret n (i + 1)
                (delay_time_ms + delay_time_ms))
    else []

/-- What the environment supplies to one pass of the main loop of
`notice_udp_task`: the result of `recvfrom`, the bytes and the peer address it
stored, and the results of the `sendto` calls of this pass. -/
structure UdpInput where
  ret : Int
  data : List Nat
  from_addr : sockaddr_in
  sendto_ret : Nat → Int

/-- One pass of the `while(1)` body of `notice_udp_task`. -/
def notice_udp_pass (portTICK_RATE_MS portTICK_PERIOD_MS : Nat) (root_mac : Fin 6 → Fin 256)
    (inp : UdpInput) : List UdpEv :=
  let udp_server_buf := List.replicate NOTICE_UDP_BUF_SIZE 0
  let udp_server_buf := recv_into udp_server_buf NOTICE_UDP_BUF_SIZE inp.data
  UdpEv.recvfrom inp.ret ::
    if inp.ret > 0 then
      match strcmp udp_server_buf challenge_literal with
      | none => [UdpEv.fault]
      | some r =>
        if r ≠ 0 then []
        else
          match sprintf_into udp_server_buf (discovery_reply root_mac) with
          | none => [UdpEv.fault]
          | some udp_server_buf =>
            send_loop portTICK_RATE_MS udp_server_buf inp.from_addr inp.sendto_ret
                NOTICE_UDP_RETRY_COUNT 0 0
              ++ [UdpEv.vTaskDelay (200 / portTICK_PERIOD_MS)]
    else [UdpEv.vTaskDelay (200 / portTICK_PERIOD_MS)]

/-- The main loop of `notice_udp_task`, one input per pass. -/
def notice_udp_task (portTICK_RATE_MS portTICK_PERIOD_MS : Nat) (root_mac : Fin 6 → Fin 256) :
    List UdpInput → List UdpEv
  | [] => []
  | inp :: rest =>
    notice_udp_pass portTICK_RATE_MS portTICK_PERIOD_MS root_mac inp
      ++ notice_udp_task portTICK_RATE_MS portTICK_PERIOD_MS root_mac rest

/-- The input of a pass in which `recvfrom` delivers the datagram `p` sent from
`a`: at most `NOTICE_UDP_BUF_SIZE` bytes are stored and their count is returned. -/
def udp_datagram (p : List Nat) (a : sockaddr_in) (sendto_ret : Nat → Int) : UdpInput :=
  { ret := ((p.take NOTICE_UDP_BUF_SIZE).length : Nat), data := p, from_addr := a,
    sendto_ret := sendto_ret }

/-- The input of a pass in which `recvfrom` returns `ret ≤ 0` and stores nothing. -/
def udp_nothing (ret : Int) : UdpInput :=
  { ret := ret, data := [], from_addr := ⟨0, 0⟩, sendto_ret := fun _ => 0 }

/-! ## `tcp_server.c` -/

/-- `#define PORT 7889` -/
def PORT : Nat := 7889

/-- The bytes of the acknowledgment literal `"Yes,I'm."` of `data_handle_task`,
without the terminating NUL (the apostrophe is written `\x27`). -/
def acknowledgment : List Nat := cbytes "Yes,I\x27m."

/-- What the connection handler does that is visible from outside. -/
inductive TcpEv
  | recv (ret : Int)
  | send (data : List Nat) (ret : Int)
  | vTaskDelete
  | fault
deriving DecidableEq, Repr

/-- What the environment supplies to one pass of the loop of
`data_handle_task`: the result of `recv`, the bytes it stored, and the result
of the `send` call of this pass, should one be made. -/
structure TcpInput where
  ret : Int
  data : List Nat
  send_ret : Int
deriving DecidableEq, Repr

/-- Function `data_handle_task`, from the contents of `rx_buffer` on entry
(`char rx_buffer[128]`, not initialised) and the inputs of the successive
passes of its loop. `recv` is given `sizeof(rx_buffer) - 1` as its limit. When
the inputs end the task is blocked in `recv`. -/
def data_handle_task : List Nat → List TcpInput → List TcpEv
  | _, [] => []
  | rx_buffer, inp :: rest =>
    let len := inp.ret
    let rx_buffer := recv_into rx_buffer (rx_buffer.length - 1) inp.data
    TcpEv.recv len ::
      if len < 0 then [TcpEv.vTaskDelete]
      else if len = 0 then [TcpEv.vTaskDelete]
      else
        match store rx_buffer len.toNat 0 with
        | none => [TcpEv.fault]
        | some rx_buffer =>
          match strcmp rx_buffer challenge_literal with
          | none => [TcpEv.fault]
          | some r =>
            if r ≠ 0 then data_handle_task rx_buffer rest
            else
              let err := inp.send_ret
              TcpEv.send acknowledgment err ::
                if err < 0 then [TcpEv.vTaskDelete]
                else data_handle_task rx_buffer rest

/-- The input of a pass in which `recv` delivers the bytes `p`. -/
def tcp_read (p : List Nat) (send_ret : Int) : TcpInput :=
  { ret := (p.length : Nat), data := p, send_ret := send_ret }

/-- The calls `tcp_server_task` makes, with their results. -/
inductive SockEv
  | socket (ret : Int)
  | setsockopt (sock ret : Int)
  | bind (sock ret : Int)
  | listen (sock ret : Int)
  | accept (sock ret : Int)
  | shutdown (sock : Int)
  | close (sock : Int)
  | xTaskCreate (sock : Int)
deriving DecidableEq, Repr

/-- The call of `tcp_server_task` whose result is awaited. -/
inductive Pending
  | socket
  | setsockopt
  | bind
  | listen
  | accept
deriving DecidableEq, Repr

/-- The state of `tcp_server_task` between two calls. -/
structure Listener where
  pending : Pending
  listen_sock : Int
deriving DecidableEq, Repr

/-- The statements from label `retry` up to the call of `socket`: a listening
socket left from the previous round is shut down and closed. -/
def retry (listen_sock : Int) : List SockEv :=
  if listen_sock ≠ -1 then [SockEv.shutdown listen_sock, SockEv.close listen_sock] else []

/-- One step of `tcp_server_task`: the pending call returns `r`, and the task
runs up to its next call of `socket`, `setsockopt`, `bind`, `listen` or
`accept`. The value is the new state and the calls completed on the way. -/
def tcp_server_step (s : Listener) (r : Int) : Listener × List SockEv :=
  match s.pending with
  | Pending.socket =>
    let listen_sock := r
    if listen_sock < 0 then
      (⟨Pending.socket, listen_sock⟩, SockEv.socket r :: retry listen_sock)
    else (⟨Pending.setsockopt, listen_sock⟩, [SockEv.socket r])
  | Pending.setsockopt =>
    if r < 0 then
      (⟨Pending.socket, s.listen_sock⟩, SockEv.setsockopt s.listen_sock r :: retry s.listen_sock)
    else (⟨Pending.bind, s.listen_sock⟩, [SockEv.setsockopt s.listen_sock r])
  | Pending.bind =>
    let err := r
    if err ≠ 0 then
      (⟨Pending.socket, s.listen_sock⟩, SockEv.bind s.listen_sock r :: retry s.listen_sock)
    else (⟨Pending.listen, s.listen_sock⟩, [SockEv.bind s.listen_sock r])
  | Pending.listen =>
    let err := r
    if err ≠ 0 then
      (⟨Pending.socket, s.listen_sock⟩, SockEv.listen s.listen_sock r :: retry s.listen_sock)
    else (⟨Pending.accept, s.listen_sock⟩, [SockEv.listen s.listen_sock r])
  | Pending.accept =>
    let sock := r
    if sock < 0 then
      (⟨Pending.socket, s.listen_sock⟩,
        SockEv.accept s.listen_sock r :: SockEv.shutdown sock :: SockEv.close sock
          :: retry s.listen_sock)
    else (⟨Pending.accept, s.listen_sock⟩, [SockEv.accept s.listen_sock r, SockEv.xTaskCreate sock])

/-- The task run from state `s` on the results of its successive calls. -/
def tcp_server_run (s : Listener) : List Int → List SockEv
  | [] => []
  | r :: rest => (tcp_server_step s r).2 ++ tcp_server_run (tcp_server_step s r).1 rest

/-- The state reached from `s` after the given results. -/
def tcp_server_state (s : Listener) : List Int → Listener
  | [] => s
  | r :: rest => tcp_server_state (tcp_server_step s r).1 rest

/-- Function `tcp_server_task`: it starts with `listen_sock = -1`, about to
call `socket`. -/
def tcp_server_task (results : List Int) : List SockEv :=
  tcp_server_run ⟨Pending.socket, -1⟩ results

/-! ## Specification-side vocabulary -/

/-- The hexadecimal digit of value `d`, lower case. -/
def hex_digit (d : Nat) : Char := "0123456789abcdef".toList.getD d '?'

/-- A byte written as two hexadecimal digits, the high one first. -/
def hex_pair (b : Nat) : List Char := [hex_digit (b / 16), hex_digit (b % 16)]

/-- The `sendto` events of a trace, in order. -/
def sendtos : List UdpEv → List UdpEv
  | [] => []
  | UdpEv.sendto d a r :: t => UdpEv.sendto d a r :: sendtos t
  | _ :: t => sendtos t

/-- The arguments of the `vTaskDelay` calls of a trace, in order. -/
def delays : List UdpEv → List Nat
  | [] => []
  | UdpEv.vTaskDelay n :: t => n :: delays t
  | _ :: t => delays t

/-- The number of `sendto` calls the retry loop makes for the results
`sendto_ret`: it runs up to and including the first call whose result is
`≤ 0`, and three times when there is none. -/
def attempts (sendto_ret : Nat → Int) : Nat :=
  if sendto_ret 0 ≤ 0 then 1 else if sendto_ret 1 ≤ 0 then 2 else 3

/-- The payloads the comparison with the challenge accepts: the challenge
itself, and any payload that starts with the challenge followed by a zero byte. -/
def accepted (p : List Nat) : Prop := p = challenge ∨ (challenge ++ [0]) <+: p

instance : DecidablePred accepted := fun p => by
  unfold accepted
  exact inferInstance

/-- What the handler owes one read of data: the `recv` call itself, followed by
one `send` of the acknowledgment when the bytes read are accepted. -/
def answer (x : TcpInput) : List TcpEv :=
  TcpEv.recv x.ret :: (if accepted x.data then [TcpEv.send acknowledgment x.send_ret] else [])

/-- The answers to a sequence of reads, in order. -/
def answers : List TcpInput → List TcpEv
  | [] => []
  | x :: rest => answer x ++ answers rest

/-- The bytes of the discovery reply, as `sendto` is to transmit them. -/
def reply_bytes (root_mac : Fin 6 → Fin 256) : List Nat :=
  (discovery_reply root_mac).map Char.toNat

/-- How far the latest setup attempt of the listener has come. -/
inductive Stage
  | idle
  | created (sock : Int)
  | configured (sock : Int)
  | bound (sock : Int)
  | listening (sock : Int)
deriving DecidableEq, Repr

/-- The socket a stage is about. -/
def Stage.sock : Stage → Option Int
  | Stage.idle => none
  | Stage.created s => some s
  | Stage.configured s => some s
  | Stage.bound s => some s
  | Stage.listening s => some s

/-- What an observer of the calls knows: the listening sockets created and not
yet closed, the stage of the latest setup attempt, and the last call seen. -/
structure Observed where
  open_socks : List Int
  stage : Stage
  last : Option SockEv
deriving DecidableEq, Repr

/-- The stage after one more call: each of `socket`, `setsockopt`, `bind` and
`listen` advances the attempt when it succeeds on the socket of the attempt and
abandons it otherwise; `shutdown` or `close` of that socket ends it. -/
def stage_after : Stage → SockEv → Stage
  | _, SockEv.socket r => if 0 ≤ r then Stage.created r else Stage.idle
  | Stage.created s, SockEv.setsockopt s' r =>
    if s' = s ∧ 0 ≤ r then Stage.configured s else Stage.idle
  | Stage.configured s, SockEv.bind s' r => if s' = s ∧ r = 0 then Stage.bound s else Stage.idle
  | Stage.bound s, SockEv.listen s' r => if s' = s ∧ r = 0 then Stage.listening s else Stage.idle
  | Stage.listening s, SockEv.accept _ _ => Stage.listening s
  | st, SockEv.xTaskCreate _ => st
  | st, SockEv.shutdown s' => if st.sock = some s' then Stage.idle else st
  | st, SockEv.close s' => if st.sock = some s' then Stage.idle else st
  | _, _ => Stage.idle

/-- The observer after one more call: a successful `socket` opens a listening
socket and `close` closes the one it names. -/
def observe (g : Observed) (e : SockEv) : Observed :=
  { open_socks :=
      match e with
      | SockEv.socket r => if 0 ≤ r then r :: g.open_socks else g.open_socks
      | SockEv.close s => g.open_socks.filter (fun x => x ≠ s)
      | _ => g.open_socks
    stage := stage_after g.stage e
    last := some e }

/-- The observer after the calls of a trace. -/
def observed_after : Observed → List SockEv → Observed
  | g, [] => g
  | g, e :: t => observed_after (observe g e) t

/-- The observer before the task starts. -/
def nothing_observed : Observed := { open_socks := [], stage := Stage.idle, last := none }

/-- The result `r` of the pending call is one the task treats as a failure. -/
def failed : Pending → Int → Prop
  | Pending.socket, r => r < 0
  | Pending.setsockopt, r => r < 0
  | Pending.bind, r => r ≠ 0
  | Pending.listen, r => r ≠ 0
  | Pending.accept, r => r < 0

/-- The number of `socket`, `setsockopt`, `bind`, `listen` and `accept` calls of
a trace. -/
def calls : List SockEv → Nat
  | [] => 0
  | SockEv.shutdown _ :: t => calls t
  | SockEv.close _ :: t => calls t
  | SockEv.xTaskCreate _ :: t => calls t
  | _ :: t => calls t + 1

/-- The property of one call `e` made when the observer is in `g`. -/
def call_ok (g : Observed) (e : SockEv) : Prop :=
  (observe g e).open_socks.length ≤ 1 ∧
  (∀ r, e = SockEv.socket r → g.open_socks = []) ∧
  (∀ s r, e = SockEv.accept s r → g.stage = Stage.listening s) ∧
  (∀ s, e = SockEv.close s → s ∈ g.open_socks → g.last = some (SockEv.shutdown s))

/-- Every call of a trace has the property `call_ok`. -/
def calls_ok : Observed → List SockEv → Prop
  | _, [] => True
  | g, e :: t => call_ok g e ∧ calls_ok (observe g e) t

/-- What ties the state of the task to what the observer has seen. -/
def tied (s : Listener) (g : Observed) : Prop :=
  match s.pending with
  | Pending.socket => g.open_socks = []
  | Pending.setsockopt =>
    g.open_socks = [s.listen_sock] ∧ g.stage = Stage.created s.listen_sock ∧ 0 ≤ s.listen_sock
  | Pending.bind =>
    g.open_socks = [s.listen_sock] ∧ g.stage = Stage.configured s.listen_sock ∧ 0 ≤ s.listen_sock
  | Pending.listen =>
    g.open_socks = [s.listen_sock] ∧ g.stage = Stage.bound s.listen_sock ∧ 0 ≤ s.listen_sock
  | Pending.accept =>
    g.open_socks = [s.listen_sock] ∧ g.stage = Stage.listening s.listen_sock ∧ 0 ≤ s.listen_sock

/-! ## Lemmas on the C string functions -/

theorem strcmp_loop_reads (body tail : List Nat) :
    ∀ (s1 : List Nat) (i : Nat), body.length < s1.length →
      ∃ r j, strcmp_loop s1 (body ++ 0 :: tail) i = some (r, j) ∧ i ≤ j ∧ j ≤ i + body.length := by
  induction body with
  | nil =>
    intro s1 i h
    cases s1 with
    | nil => simp at h
    | cons c s1 => exact ⟨(c : Int) - 0, i, by simp [strcmp_loop], le_refl _, by simp⟩
  | cons d body ih =>
    intro s1 i h
    cases s1 with
    | nil => simp at h
    | cons c s1 =>
      simp only [List.cons_append, strcmp_loop]
      split
      · obtain ⟨r, j, h1, h2, h3⟩ := ih s1 (i + 1) (by simpa using h)
        exact ⟨r, j, h1, by omega, by simp only [List.length_cons]; omega⟩
      · exact ⟨_, i, rfl, le_refl _, by omega⟩

theorem strcmp_loop_zero_iff (body : List Nat) (hb : ∀ x ∈ body, x ≠ 0) :
    ∀ (s1 : List Nat) (i : Nat),
      (∃ j, strcmp_loop s1 (body ++ [0]) i = some (0, j)) ↔ (body ++ [0]) <+: s1 := by
  induction body with
  | nil =>
    intro s1 i
    cases s1 with
    | nil => simp [strcmp_loop]
    | cons c s1 =>
      simp only [List.nil_append, strcmp_loop, List.cons_prefix_cons, List.nil_prefix, and_true]
      constructor
      · rintro ⟨j, hj⟩
        split at hj
        · omega
        · simp at hj
          omega
      · intro h
        subst h
        exact ⟨i, by simp⟩
  | cons d body ih =>
    intro s1 i
    have hd : d ≠ 0 := hb d (by simp)
    have hb' : ∀ x ∈ body, x ≠ 0 := fun x hx => hb x (by simp [hx])
    cases s1 with
    | nil => simp [strcmp_loop]
    | cons c s1 =>
      simp only [List.cons_append, strcmp_loop, List.cons_prefix_cons]
      by_cases hcd : c = d
      · subst hcd
        simp only [ne_eq, hd, not_false_eq_true, and_self, if_true, true_and]
        exact ih hb' s1 (i + 1)
      · have h1 : ¬ (c ≠ 0 ∧ c = d) := fun h => hcd h.2
        simp only [h1, if_false]
        constructor
        · rintro ⟨j, hj⟩
          simp at hj
          omega
        · intro h
          exact absurd h.1.symm hcd

theorem strcmp_zero_iff (body : List Nat) (hb : ∀ x ∈ body, x ≠ 0) (s1 : List Nat) :
    strcmp s1 (body ++ [0]) = some 0 ↔ (body ++ [0]) <+: s1 := by
  rw [← strcmp_loop_zero_iff body hb s1 0]
  unfold strcmp
  constructor
  · intro h
    cases hx : strcmp_loop s1 (body ++ [0]) 0 with
    | none => simp [hx] at h
    | some v =>
      obtain ⟨r, j⟩ := v
      simp [hx] at h
      exact ⟨j, by rw [h]⟩
  · rintro ⟨j, hj⟩
    simp [hj]

theorem strcmp_defined (body : List Nat) (s1 : List Nat) (h : body.length < s1.length) :
    ∃ r, strcmp s1 (body ++ [0]) = some r := by
  obtain ⟨r, j, h1, _, _⟩ := strcmp_loop_reads body [] s1 0 h
  exact ⟨r, by simp [strcmp, h1]⟩

theorem prefix_nul_iff (body : List Nat) (hb : ∀ x ∈ body, x ≠ 0) :
    ∀ (p rest : List Nat),
      (body ++ [0]) <+: (p ++ 0 :: rest) ↔ (p = body ∨ (body ++ [0]) <+: p) := by
  induction body with
  | nil =>
    intro p rest
    cases p with
    | nil => simp
    | cons x p => simp
  | cons d body ih =>
    intro p rest
    have hd : d ≠ 0 := hb d (by simp)
    have hb' : ∀ x ∈ body, x ≠ 0 := fun x hx => hb x (by simp [hx])
    cases p with
    | nil => simp [hd]
    | cons x p =>
      simp only [List.cons_append, List.cons_prefix_cons, List.cons.injEq]
      rw [ih hb' p rest]
      constructor
      · rintro ⟨h1, h2 | h2⟩
        · exact Or.inl ⟨h1.symm, h2⟩
        · exact Or.inr ⟨h1, h2⟩
      · rintro (⟨h1, h2⟩ | ⟨h1, h2⟩)
        · exact ⟨h1.symm, Or.inl h2⟩
        · exact ⟨h1, Or.inr h2⟩

theorem strlen_append_nul (l rest : List Nat) (hl : ∀ x ∈ l, x ≠ 0) :
    strlen (l ++ 0 :: rest) = some l.length := by
  induction l with
  | nil => simp [strlen]
  | cons x l ih =>
    have hx : x ≠ 0 := hl x (by simp)
    have hl' : ∀ y ∈ l, y ≠ 0 := fun y hy => hl y (by simp [hy])
    simp [strlen, hx, ih hl']

theorem challenge_bytes :
    challenge = [65, 114, 101, 32, 89, 111, 117, 32, 69, 83, 80, 51, 50, 32, 68, 101, 118,
      105, 99, 101, 63] := by decide

theorem challenge_literal_eq : challenge_literal = challenge ++ [0] := rfl

theorem challenge_nonzero : ∀ x ∈ challenge, x ≠ 0 := by decide

theorem challenge_length : challenge.length = 21 := by decide

/-! ## The buffers after a receive -/

theorem udp_buffer (p : List Nat) (h : p.length ≤ 64) :
    recv_into (List.replicate NOTICE_UDP_BUF_SIZE 0) NOTICE_UDP_BUF_SIZE p
      = p ++ List.replicate (64 - p.length) 0 := by
  have ht : List.take 64 p = p := List.take_of_length_le h
  simp only [recv_into, NOTICE_UDP_BUF_SIZE, ht, List.drop_replicate]

theorem udp_buffer_length (p : List Nat) :
    (recv_into (List.replicate NOTICE_UDP_BUF_SIZE 0) NOTICE_UDP_BUF_SIZE p).length = 64 := by
  simp [recv_into, NOTICE_UDP_BUF_SIZE]

theorem tcp_buffer (buf p : List Nat) (hb : buf.length = 128) (h : p.length ≤ 127) :
    store (recv_into buf (buf.length - 1) p) p.length 0
      = some (p ++ 0 :: buf.drop (p.length + 1)) := by
  have ht : List.take 127 p = p := List.take_of_length_le h
  have hlen : p.length < (p ++ List.drop p.length buf).length := by
    simp only [List.length_append, List.length_drop]
    omega
  simp only [recv_into, hb, ht, store, hlen, if_true]
  congr 1
  rw [List.set_append_right _ _ (le_refl _)]
  congr 1
  simp only [Nat.sub_self]
  have hd : List.drop p.length buf ≠ [] := by
    intro h0
    have := congrArg List.length h0
    simp at this
    omega
  obtain ⟨x, t, hxt⟩ := List.exists_cons_of_ne_nil hd
  rw [hxt, List.set_cons_zero]
  congr 1
  have : List.drop (p.length + 1) buf = List.drop 1 (List.drop p.length buf) := by
    rw [List.drop_drop, Nat.add_comm]
  rw [this, hxt]
  rfl

theorem udp_strcmp_zero_iff (p : List Nat) (h1 : 1 ≤ p.length) (h : p.length ≤ 64) :
    strcmp (recv_into (List.replicate NOTICE_UDP_BUF_SIZE 0) NOTICE_UDP_BUF_SIZE p)
      challenge_literal = some 0 ↔ accepted p := by
  rw [udp_buffer p h, challenge_literal_eq, strcmp_zero_iff challenge challenge_nonzero]
  unfold accepted
  by_cases h64 : p.length = 64
  · rw [h64]
    simp only [Nat.sub_self, List.replicate_zero, List.append_nil]
    constructor
    · exact Or.inr
    · rintro (h0 | h0)
      · rw [h0, challenge_length] at h64
        omega
      · exact h0
  · have : 64 - p.length = (63 - p.length) + 1 := by omega
    rw [this, List.replicate_succ]
    exact prefix_nul_iff challenge challenge_nonzero p _

theorem tcp_strcmp_zero_iff (p rest : List Nat) :
    strcmp (p ++ 0 :: rest) challenge_literal = some 0 ↔ accepted p := by
  rw [challenge_literal_eq, strcmp_zero_iff challenge challenge_nonzero]
  exact prefix_nul_iff challenge challenge_nonzero p rest

/-! ## One pass of each responder -/

theorem tcp_pass (rx_buffer : List Nat) (x : TcpInput) (rest : List TcpInput)
    (hb : rx_buffer.length = 128) (hret : x.ret = (x.data.length : Nat))
    (h1 : 1 ≤ x.data.length) (h127 : x.data.length ≤ 127) :
    ∃ b : List Nat, b.length = 128 ∧
      data_handle_task rx_buffer (x :: rest)
        = TcpEv.recv x.ret ::
            (if accepted x.data then
              TcpEv.send acknowledgment x.send_ret ::
                (if x.send_ret < 0 then [TcpEv.vTaskDelete] else data_handle_task b rest)
             else data_handle_task b rest) := by
  refine ⟨x.data ++ 0 :: rx_buffer.drop (x.data.length + 1), ?_, ?_⟩
  · simp only [List.length_append, List.length_cons, List.length_drop]
    omega
  · have hneg : ¬ x.ret < 0 := by rw [hret]; omega
    have hzero : ¬ x.ret = 0 := by rw [hret]; omega
    have hnat : x.ret.toNat = x.data.length := by rw [hret]; simp
    have hlen : challenge.length < (x.data ++ 0 :: rx_buffer.drop (x.data.length + 1)).length := by
      simp only [List.length_append, List.length_cons, List.length_drop, challenge_length]
      omega
    obtain ⟨r, hr⟩ := strcmp_defined challenge _ hlen
    have hiff := tcp_strcmp_zero_iff x.data (rx_buffer.drop (x.data.length + 1))
    rw [challenge_literal_eq] at hiff
    rw [data_handle_task]
    simp only [hneg, hzero, if_false, hnat, tcp_buffer rx_buffer x.data hb h127,
      challenge_literal_eq, hr]
    by_cases hacc : accepted x.data
    · have h0 : r = 0 := by
        have := hiff.mpr hacc
        rw [hr] at this
        exact Option.some.inj this
      simp [hacc, h0]
    · have h0 : r ≠ 0 := by
        intro h0
        apply hacc
        apply hiff.mp
        rw [hr, h0]
      simp [hacc, h0]

theorem udp_pass_rejected (r1 r2 : Nat) (root_mac : Fin 6 → Fin 256) (p : List Nat)
    (a : sockaddr_in) (sr : Nat → Int) (h1 : 1 ≤ p.length) (h64 : p.length ≤ 64)
    (hn : ¬ accepted p) :
    notice_udp_pass r1 r2 root_mac (udp_datagram p a sr) = [UdpEv.recvfrom (p.length : Nat)] := by
  have ht : List.take NOTICE_UDP_BUF_SIZE p = p := List.take_of_length_le h64
  have hlen : challenge.length
      < (recv_into (List.replicate NOTICE_UDP_BUF_SIZE 0) NOTICE_UDP_BUF_SIZE p).length := by
    rw [udp_buffer_length, challenge_length]
    omega
  obtain ⟨r, hr⟩ := strcmp_defined challenge _ hlen
  have hiff := udp_strcmp_zero_iff p h1 h64
  rw [challenge_literal_eq] at hiff
  have h0 : r ≠ 0 := by
    intro h0
    apply hn
    apply hiff.mp
    rw [hr, h0]
  have hpos : ((p.length : Nat) : Int) > 0 := by omega
  simp only [notice_udp_pass, udp_datagram, ht, challenge_literal_eq, hr]
  simp [hpos, h0]

/-! ## C1 -/

/-- C1, as the claim states it, fails at the 23-byte payload made of the
challenge followed by the bytes 0 and 1: it differs from the challenge, yet the
TCP handler sends the acknowledgment for it and the UDP responder sends the
discovery reply for it. -/
theorem payload_with_zero_byte_is_answered :
    1 ≤ (challenge ++ [0, 1]).length ∧ challenge ++ [0, 1] ≠ challenge ∧
    data_handle_task (List.replicate 128 0) [tcp_read (challenge ++ [0, 1]) 8]
      = [TcpEv.recv 23, TcpEv.send acknowledgment 8] ∧
    (sendtos (notice_udp_pass 10 10 (fun _ => 0)
        (udp_datagram (challenge ++ [0, 1]) ⟨1, 2⟩ (fun _ => 31)))).length = 3 := by
  set_option maxRecDepth 100000 in decide

/-- C1, amended: in both responders, a received payload of at least one byte
that is neither the challenge nor the challenge followed by a zero byte (and
then anything) gets no reply: the pass consists of the receive call alone. -/
theorem no_reply_unless_accepted (p : List Nat) (h1 : 1 ≤ p.length) (hn : ¬ accepted p) :
    (p.length ≤ 127 → ∀ (rx_buffer : List Nat) (send_ret : Int), rx_buffer.length = 128 →
      data_handle_task rx_buffer [tcp_read p send_ret] = [TcpEv.recv (p.length : Nat)]) ∧
    (p.length ≤ 64 → ∀ (r1 r2 : Nat) (root_mac : Fin 6 → Fin 256) (a : sockaddr_in)
        (sr : Nat → Int),
      notice_udp_pass r1 r2 root_mac (udp_datagram p a sr) = [UdpEv.recvfrom (p.length : Nat)]) := by
  constructor
  · intro h127 rx_buffer send_ret hb
    obtain ⟨b, _, hrun⟩ := tcp_pass rx_buffer (tcp_read p send_ret) [] hb rfl h1 h127
    rw [hrun]
    have hn' : ¬ accepted (tcp_read p send_ret).data := hn
    rw [if_neg hn']
    simp [tcp_read, data_handle_task]
  · intro h64 r1 r2 root_mac a sr
    exact udp_pass_rejected r1 r2 root_mac p a sr h1 h64 hn

theorem no_reply_unless_accepted_witness :
    ¬ accepted [104, 101, 108, 108, 111] ∧
    data_handle_task (List.replicate 128 7) [tcp_read [104, 101, 108, 108, 111] 8]
      = [TcpEv.recv 5] ∧
    notice_udp_pass 10 10 (fun _ => 0) (udp_datagram [104, 101, 108, 108, 111] ⟨1, 2⟩ (fun _ => 31))
      = [UdpEv.recvfrom 5] :=
  have h := no_reply_unless_accepted [104, 101, 108, 108, 111] (by decide)
    (by set_option maxRecDepth 100000 in decide)
  ⟨by set_option maxRecDepth 100000 in decide,
    h.1 (by decide) (List.replicate 128 7) 8 (List.length_replicate 128 7),
    h.2 (by decide) 10 10 (fun _ => 0) ⟨1, 2⟩ (fun _ => 31)⟩

/-! ## C5 -/

theorem handler_trace_aux (reads : List TcpInput) (last : TcpInput) (rest : List TcpInput)
    (hl : last.ret ≤ 0) :
    ∀ rx_buffer : List Nat, rx_buffer.length = 128 →
      (∀ x ∈ reads, x.ret = (x.data.length : Nat) ∧ 1 ≤ x.data.length ∧ x.data.length ≤ 127
        ∧ 0 ≤ x.send_ret) →
      data_handle_task rx_buffer reads = answers reads ∧
      data_handle_task rx_buffer (reads ++ last :: rest)
        = answers reads ++ [TcpEv.recv last.ret, TcpEv.vTaskDelete] := by
  induction reads with
  | nil =>
    intro rx_buffer _ _
    refine ⟨by simp [data_handle_task, answers], ?_⟩
    simp only [List.nil_append, answers, data_handle_task]
    by_cases hneg : last.ret < 0
    · simp [hneg]
    · have hz : last.ret = 0 := by omega
      simp [hz]
  | cons x reads ih =>
    intro rx_buffer hb hr
    obtain ⟨hret, h1, h127, hsend⟩ := hr x (by simp)
    have hr' : ∀ y ∈ reads, y.ret = (y.data.length : Nat) ∧ 1 ≤ y.data.length
        ∧ y.data.length ≤ 127 ∧ 0 ≤ y.send_ret := fun y hy => hr y (by simp [hy])
    have hs : ¬ x.send_ret < 0 := by omega
    constructor
    · obtain ⟨b, hbl, hrun⟩ := tcp_pass rx_buffer x reads hb hret h1 h127
      rw [hrun, (ih b hbl hr').1]
      by_cases hacc : accepted x.data <;> simp [answers, answer, hacc, hs]
    · obtain ⟨b, hbl, hrun⟩ := tcp_pass rx_buffer x (reads ++ last :: rest) hb hret h1 h127
      rw [List.cons_append, hrun, (ih b hbl hr').2]
      by_cases hacc : accepted x.data <;> simp [answers, answer, hacc, hs]

/-- C5: let the handler receive the reads `reads`, each of 1 to 127 bytes and
with its `send` succeeding, then a read `last` of length zero or negative, then
anything. Each read of `reads` is followed by exactly one `send` of the 8-byte
acknowledgment when it is accepted, which a read equal to the challenge is, and
by none otherwise, and the next `recv` follows in both cases; after `last` the
task ends without a further `recv` or `send`, whatever `rest` holds. -/
theorem handler_answers_each_read (rx_buffer : List Nat) (reads : List TcpInput)
    (last : TcpInput) (rest : List TcpInput) (hb : rx_buffer.length = 128)
    (hr : ∀ x ∈ reads, x.ret = (x.data.length : Nat) ∧ 1 ≤ x.data.length ∧ x.data.length ≤ 127
      ∧ 0 ≤ x.send_ret)
    (hl : last.ret ≤ 0) :
    data_handle_task rx_buffer reads = answers reads ∧
    data_handle_task rx_buffer (reads ++ last :: rest)
      = answers reads ++ [TcpEv.recv last.ret, TcpEv.vTaskDelete] ∧
    (∀ x ∈ reads, x.data = challenge →
      answer x = [TcpEv.recv x.ret, TcpEv.send acknowledgment x.send_ret]) ∧
    (∀ x ∈ reads, ¬ accepted x.data → answer x = [TcpEv.recv x.ret]) ∧
    acknowledgment.length = 8 := by
  obtain ⟨h1, h2⟩ := handler_trace_aux reads last rest hl rx_buffer hb hr
  refine ⟨h1, h2, ?_, ?_, rfl⟩
  · intro x _ hx
    have hacc : accepted x.data := Or.inl hx
    simp [answer, hacc]
  · intro x _ hx
    simp [answer, hx]

theorem handler_answers_each_read_witness :
    data_handle_task (List.replicate 128 7)
      ([tcp_read challenge 8, tcp_read [104, 101, 108, 108, 111] 8, tcp_read challenge 8]
        ++ tcp_read [] 0 :: [tcp_read challenge 8])
      = [TcpEv.recv 21, TcpEv.send acknowledgment 8, TcpEv.recv 5, TcpEv.recv 21,
          TcpEv.send acknowledgment 8, TcpEv.recv 0, TcpEv.vTaskDelete] :=
  (handler_answers_each_read (List.replicate 128 7)
    [tcp_read challenge 8, tcp_read [104, 101, 108, 108, 111] 8, tcp_read challenge 8]
    (tcp_read [] 0) [tcp_read challenge 8] (List.length_replicate 128 7)
    (by set_option maxRecDepth 100000 in decide) (by decide)).2.1.trans
    (by set_option maxRecDepth 100000 in decide)

/-! ## C10 -/

/-- C10: whatever datagram of 1 to 64 bytes `recvfrom` stores in the zeroed
64-byte buffer, the comparison with the challenge returns after reading the
buffer at offsets 0 to at most 21, inside the buffer; and for every read of 1
to 127 bytes into the 128-byte `rx_buffer` the store `rx_buffer[len] = 0` is
inside the buffer. -/
theorem comparison_and_terminator_in_bounds :
    (∀ p : List Nat, 1 ≤ p.length → p.length ≤ 64 →
      ∃ r j, strcmp_loop (recv_into (List.replicate NOTICE_UDP_BUF_SIZE 0) NOTICE_UDP_BUF_SIZE p)
          challenge_literal 0 = some (r, j) ∧ j ≤ 21 ∧ j < NOTICE_UDP_BUF_SIZE) ∧
    (∀ rx_buffer p : List Nat, rx_buffer.length = 128 → 1 ≤ p.length → p.length ≤ 127 →
      p.length < rx_buffer.length ∧
      ∃ b, store (recv_into rx_buffer (rx_buffer.length - 1) p) p.length 0 = some b) := by
  constructor
  · intro p _ _
    have hlen : challenge.length
        < (recv_into (List.replicate NOTICE_UDP_BUF_SIZE 0) NOTICE_UDP_BUF_SIZE p).length := by
      rw [udp_buffer_length, challenge_length]
      omega
    obtain ⟨r, j, h1, _, h3⟩ := strcmp_loop_reads challenge [] _ 0 hlen
    rw [challenge_length] at h3
    exact ⟨r, j, h1, by omega, by simp only [NOTICE_UDP_BUF_SIZE]; omega⟩
  · intro rx_buffer p hb _ h127
    exact ⟨by omega, _, tcp_buffer rx_buffer p hb h127⟩

theorem comparison_and_terminator_in_bounds_witness :
    (∃ r j, strcmp_loop
        (recv_into (List.replicate NOTICE_UDP_BUF_SIZE 0) NOTICE_UDP_BUF_SIZE (List.replicate 64 65))
        challenge_literal 0 = some (r, j) ∧ j ≤ 21 ∧ j < NOTICE_UDP_BUF_SIZE) ∧
    (∃ b, store (recv_into (List.replicate 128 7) ((List.replicate 128 7).length - 1)
        (List.replicate 127 65)) (List.replicate 127 65).length 0 = some b) :=
  ⟨comparison_and_terminator_in_bounds.1 (List.replicate 64 65) (by simp) (by simp),
    (comparison_and_terminator_in_bounds.2 (List.replicate 128 7) (List.replicate 127 65)
      (by simp) (by simp) (by simp)).2⟩

/-! ## The discovery reply -/

set_option maxRecDepth 100000 in
theorem fmt_02x_byte : ∀ b : Fin 256, fmt_02x b = hex_pair b := by decide

set_option maxRecDepth 100000 in
theorem hex_pair_nonzero : ∀ b : Fin 256, ∀ c ∈ hex_pair b, c.toNat ≠ 0 := by decide

theorem fmt_d_port : fmt_d NOTICE_TCP_PORT = "8899".toList := by decide

theorem discovery_reply_eq (m : Fin 6 → Fin 256) :
    discovery_reply m = "ESP32 MAC:".toList ++ hex_pair (m 0) ++ hex_pair (m 1) ++ hex_pair (m 2)
      ++ hex_pair (m 3) ++ hex_pair (m 4) ++ hex_pair (m 5) ++ " TCP:8899".toList := by
  unfold discovery_reply
  rw [fmt_02x_byte, fmt_02x_byte, fmt_02x_byte, fmt_02x_byte, fmt_02x_byte, fmt_02x_byte,
    fmt_d_port]
  simp only [List.append_assoc]
  rfl

theorem discovery_reply_length (m : Fin 6 → Fin 256) : (discovery_reply m).length = 31 := by
  rw [discovery_reply_eq]
  simp [hex_pair]

theorem reply_bytes_length (m : Fin 6 → Fin 256) : (reply_bytes m).length = 31 := by
  simp [reply_bytes, discovery_reply_length]

theorem reply_bytes_nonzero (m : Fin 6 → Fin 256) : ∀ x ∈ reply_bytes m, x ≠ 0 := by
  intro x hx
  simp only [reply_bytes, List.mem_map] at hx
  obtain ⟨c, hc, rfl⟩ := hx
  rw [discovery_reply_eq] at hc
  simp only [List.mem_append] at hc
  rcases hc with ((((((hc | hc) | hc) | hc) | hc) | hc) | hc) | hc
  · revert c
    decide
  · exact hex_pair_nonzero _ c hc
  · exact hex_pair_nonzero _ c hc
  · exact hex_pair_nonzero _ c hc
  · exact hex_pair_nonzero _ c hc
  · exact hex_pair_nonzero _ c hc
  · exact hex_pair_nonzero _ c hc
  · revert c
    decide

theorem sprintf_reply (m : Fin 6 → Fin 256) (buf : List Nat) (hb : buf.length = 64) :
    sprintf_into buf (discovery_reply m) = some (reply_bytes m ++ 0 :: buf.drop 32) := by
  have h32 : ((discovery_reply m).map Char.toNat ++ [0]).length = 32 := by
    simp [discovery_reply_length]
  simp only [sprintf_into, h32, hb]
  simp [reply_bytes]

/-! ## The retry loop -/

theorem send_loop_three (r1 : Nat) (buf : List Nat) (a : sockaddr_in) (sr : Nat → Int)
    (n : Nat) (hs : strlen buf = some n) :
    send_loop r1 buf a sr NOTICE_UDP_RETRY_COUNT 0 0
      = if sr 0 ≤ 0 then [UdpEv.vTaskDelay 0, UdpEv.sendto (buf.take n) a (sr 0)]
        else if sr 1 ≤ 0 then
          [UdpEv.vTaskDelay 0, UdpEv.sendto (buf.take n) a (sr 0),
            UdpEv.vTaskDelay (10 / r1 + 10 / r1), UdpEv.sendto (buf.take n) a (sr 1)]
        else
          [UdpEv.vTaskDelay 0, UdpEv.sendto (buf.take n) a (sr 0),
            UdpEv.vTaskDelay (10 / r1 + 10 / r1), UdpEv.sendto (buf.take n) a (sr 1),
            UdpEv.vTaskDelay (10 / r1 + 10 / r1 + (10 / r1 + 10 / r1)),
            UdpEv.sendto (buf.take n) a (sr 2)] := by
  by_cases h0 : sr 0 ≤ 0
  · simp [send_loop, NOTICE_UDP_RETRY_COUNT, hs, h0]
  · by_cases h1 : sr 1 ≤ 0
    · simp [send_loop, NOTICE_UDP_RETRY_COUNT, hs, h0, h1]
    · by_cases h2 : sr 2 ≤ 0 <;> simp [send_loop, NOTICE_UDP_RETRY_COUNT, hs, h0, h1, h2]

/-- The bound `NOTICE_UDP_RETRY_COUNT` given to `send_loop` never cuts the loop
short: a larger bound gives the same run. -/
theorem send_loop_bound_suffices (r1 : Nat) (buf : List Nat) (a : sockaddr_in) (sr : Nat → Int) :
    ∀ (k i d : Nat), NOTICE_UDP_RETRY_COUNT ≤ k + i →
      send_loop r1 buf a sr (k + 1) i d = send_loop r1 buf a sr k i d := by
  intro k
  induction k with
  | zero =>
    intro i d h
    have : ¬ i < NOTICE_UDP_RETRY_COUNT := by omega
    simp [send_loop, this]
  | succ k ih =>
    intro i d h
    rw [send_loop, send_loop]
    by_cases hi : i < NOTICE_UDP_RETRY_COUNT
    · simp only [hi, if_true]
      cases strlen buf with
      | none => rfl
      | some len =>
        simp only
        rw [ih (i + 1) _ (by omega)]
    · simp [hi]

theorem udp_pass_accepted (r1 r2 : Nat) (m : Fin 6 → Fin 256) (p : List Nat)
    (a : sockaddr_in) (sr : Nat → Int) (h1 : 1 ≤ p.length) (h64 : p.length ≤ 64)
    (ha : accepted p) :
    ∃ buf : List Nat, strlen buf = some 31 ∧ buf.take 31 = reply_bytes m ∧
      notice_udp_pass r1 r2 m (udp_datagram p a sr)
        = UdpEv.recvfrom (p.length : Nat)
            :: (send_loop r1 buf a sr NOTICE_UDP_RETRY_COUNT 0 0 ++ [UdpEv.vTaskDelay (200 / r2)]) := by
  have ht : List.take NOTICE_UDP_BUF_SIZE p = p := List.take_of_length_le h64
  have hz := (udp_strcmp_zero_iff p h1 h64).mpr ha
  have hpos : ((p.length : Nat) : Int) > 0 := by omega
  have hsp := sprintf_reply m _ (udp_buffer_length p)
  refine ⟨reply_bytes m ++ 0 ::
    (recv_into (List.replicate NOTICE_UDP_BUF_SIZE 0) NOTICE_UDP_BUF_SIZE p).drop 32, ?_, ?_, ?_⟩
  · have := strlen_append_nul (reply_bytes m)
      ((recv_into (List.replicate NOTICE_UDP_BUF_SIZE 0) NOTICE_UDP_BUF_SIZE p).drop 32)
      (reply_bytes_nonzero m)
    rw [reply_bytes_length] at this
    exact this
  · rw [← reply_bytes_length m, List.take_left]
  · simp only [notice_udp_pass, udp_datagram, ht, hz, hsp]
    simp [hpos]

/-! ## C2 -/

/-- C2: for every station MAC the reply built by `sprintf` is the text
`ESP32 MAC:`, the six bytes in order as two lower-case hexadecimal digits each,
and ` TCP:8899`; it is 31 characters long, fits with its NUL in the 64-byte
buffer, and once stored there the string in the buffer is these 31 bytes. -/
theorem discovery_reply_format (m : Fin 6 → Fin 256) :
    discovery_reply m = "ESP32 MAC:".toList ++ hex_pair (m 0) ++ hex_pair (m 1) ++ hex_pair (m 2)
      ++ hex_pair (m 3) ++ hex_pair (m 4) ++ hex_pair (m 5) ++ " TCP:8899".toList ∧
    (discovery_reply m).length = 31 ∧
    (discovery_reply m).length + 1 ≤ NOTICE_UDP_BUF_SIZE ∧
    ∀ buf : List Nat, buf.length = NOTICE_UDP_BUF_SIZE →
      ∃ b, sprintf_into buf (discovery_reply m) = some b ∧ b.length = NOTICE_UDP_BUF_SIZE ∧
        strlen b = some 31 ∧ b.take 31 = (discovery_reply m).map Char.toNat := by
  refine ⟨discovery_reply_eq m, discovery_reply_length m, ?_, ?_⟩
  · rw [discovery_reply_length]
    decide
  · intro buf hb
    have hb' : buf.length = 64 := hb
    refine ⟨_, sprintf_reply m buf hb', ?_, ?_, ?_⟩
    · simp only [List.length_append, List.length_cons, List.length_drop, reply_bytes_length,
        NOTICE_UDP_BUF_SIZE]
      omega
    · have := strlen_append_nul (reply_bytes m) (buf.drop 32) (reply_bytes_nonzero m)
      rw [reply_bytes_length] at this
      exact this
    · rw [← reply_bytes_length m, List.take_left]
      rfl

set_option maxRecDepth 100000 in
theorem discovery_reply_format_witness :
    discovery_reply ![36, 10, 196, 0, 31, 255] = "ESP32 MAC:240ac4001fff TCP:8899".toList :=
  (discovery_reply_format ![36, 10, 196, 0, 31, 255]).1.trans (by decide)

/-! ## C4 -/

/-- C4: for every sequence of `sendto` results, the `sendto` calls made for an
accepted datagram are `attempts` in number: never more than
`NOTICE_UDP_RETRY_COUNT`, none after the first call whose result is `≤ 0`, and
exactly three when no call fails; each sends the same 31 reply bytes to the
address the request came from. -/
theorem retry_loop_attempts (r1 r2 : Nat) (m : Fin 6 → Fin 256) (p : List Nat)
    (a : sockaddr_in) (sr : Nat → Int) (h1 : 1 ≤ p.length) (h64 : p.length ≤ 64)
    (ha : accepted p) :
    sendtos (notice_udp_pass r1 r2 m (udp_datagram p a sr))
      = (List.range (attempts sr)).map (fun i => UdpEv.sendto (reply_bytes m) a (sr i)) ∧
    attempts sr ≤ NOTICE_UDP_RETRY_COUNT ∧
    (∀ k, sr k ≤ 0 → attempts sr ≤ k + 1) ∧
    ((∀ k, k < NOTICE_UDP_RETRY_COUNT → 0 < sr k) → attempts sr = NOTICE_UDP_RETRY_COUNT) := by
  obtain ⟨buf, hs, htake, hrun⟩ := udp_pass_accepted r1 r2 m p a sr h1 h64 ha
  refine ⟨?_, ?_, ?_, ?_⟩
  · rw [hrun, send_loop_three r1 buf a sr 31 hs, htake]
    by_cases h0 : sr 0 ≤ 0
    · simp [sendtos, attempts, h0, List.range_succ]
    · by_cases h1 : sr 1 ≤ 0
      · simp [sendtos, attempts, h0, h1, List.range_succ]
      · simp [sendtos, attempts, h0, h1, List.range_succ]
  · unfold attempts NOTICE_UDP_RETRY_COUNT
    split
    · omega
    · split <;> omega
  · intro k hk
    unfold attempts
    split
    · omega
    · split
      · rcases k with _ | k
        · contradiction
        · omega
      · rcases k with _ | _ | k
        · contradiction
        · contradiction
        · omega
  · intro hall
    have h0 := hall 0 (by decide)
    have h1 := hall 1 (by decide)
    unfold attempts NOTICE_UDP_RETRY_COUNT
    rw [if_neg (by omega), if_neg (by omega)]

set_option maxRecDepth 100000 in
theorem retry_loop_attempts_witness :
    sendtos (notice_udp_pass 10 10 (fun _ => 0)
        (udp_datagram challenge ⟨1, 2⟩ (fun k => if k = 1 then -1 else 31)))
      = [UdpEv.sendto (reply_bytes (fun _ => 0)) ⟨1, 2⟩ 31,
          UdpEv.sendto (reply_bytes (fun _ => 0)) ⟨1, 2⟩ (-1)] :=
  (retry_loop_attempts 10 10 (fun _ => 0) challenge ⟨1, 2⟩ (fun k => if k = 1 then -1 else 31)
    (by decide) (by decide) (Or.inl rfl)).1.trans (by decide)

/-! ## C3 -/

/-- C3, as the claim states it, fails when every `sendto` succeeds: the first
send succeeds, and the responder still sends the reply three times. -/
theorem three_replies_when_every_send_succeeds :
    accepted challenge ∧ (0 : Int) < 31 ∧
    sendtos (notice_udp_pass 10 10 (fun _ => 0) (udp_datagram challenge ⟨1, 2⟩ (fun _ => 31)))
      = [UdpEv.sendto (reply_bytes (fun _ => 0)) ⟨1, 2⟩ 31,
          UdpEv.sendto (reply_bytes (fun _ => 0)) ⟨1, 2⟩ 31,
          UdpEv.sendto (reply_bytes (fun _ => 0)) ⟨1, 2⟩ 31] := by
  set_option maxRecDepth 100000 in decide

/-- C3, amended: for an accepted datagram the responder makes between one and
three send attempts and stops early only after an attempt that fails: it makes
one attempt when the first fails, at least two when the first succeeds, and
three when the first two succeed. -/
theorem replies_stop_only_on_failure (r1 r2 : Nat) (m : Fin 6 → Fin 256) (p : List Nat)
    (a : sockaddr_in) (sr : Nat → Int) (h1 : 1 ≤ p.length) (h64 : p.length ≤ 64)
    (ha : accepted p) :
    1 ≤ (sendtos (notice_udp_pass r1 r2 m (udp_datagram p a sr))).length ∧
    (sendtos (notice_udp_pass r1 r2 m (udp_datagram p a sr))).length ≤ NOTICE_UDP_RETRY_COUNT ∧
    (sr 0 ≤ 0 → (sendtos (notice_udp_pass r1 r2 m (udp_datagram p a sr))).length = 1) ∧
    (0 < sr 0 → 2 ≤ (sendtos (notice_udp_pass r1 r2 m (udp_datagram p a sr))).length) ∧
    (0 < sr 0 → 0 < sr 1 →
      (sendtos (notice_udp_pass r1 r2 m (udp_datagram p a sr))).length = 3) := by
  obtain ⟨buf, hs, _, hrun⟩ := udp_pass_accepted r1 r2 m p a sr h1 h64 ha
  rw [hrun, send_loop_three r1 buf a sr 31 hs]
  by_cases h0 : sr 0 ≤ 0
  · have h0' : ¬ 0 < sr 0 := by omega
    simp [sendtos, h0, h0', NOTICE_UDP_RETRY_COUNT]
  · have h0' : 0 < sr 0 := by omega
    by_cases h1 : sr 1 ≤ 0
    · have h1' : ¬ 0 < sr 1 := by omega
      simp [sendtos, h0, h0', h1, h1', NOTICE_UDP_RETRY_COUNT]
    · have h1' : 0 < sr 1 := by omega
      simp [sendtos, h0, h0', h1, h1', NOTICE_UDP_RETRY_COUNT]

theorem replies_stop_only_on_failure_witness :
    (sendtos (notice_udp_pass 10 10 (fun _ => 0)
      (udp_datagram challenge ⟨1, 2⟩ (fun _ => 31)))).length = 3 :=
  (replies_stop_only_on_failure 10 10 (fun _ => 0) challenge ⟨1, 2⟩ (fun _ => 31)
    (by decide) (by decide) (Or.inl rfl)).2.2.2.2 (by decide) (by decide)

/-! ## C8 -/

/-- C8, as the claim states it, fails at `portTICK_RATE_MS = 10`: with every
send succeeding, the delays before the three send attempts are 0, 2 and 4
ticks, not all zero. -/
theorem retry_delays_at_tick_ten :
    (0 : Nat) < 10 ∧
    delays (send_loop 10 (reply_bytes (fun _ => 0) ++ [0]) ⟨1, 2⟩ (fun _ => 31)
      NOTICE_UDP_RETRY_COUNT 0 0) = [0, 2, 4] := by
  set_option maxRecDepth 100000 in decide

/-- C8, amended: for every positive `portTICK_RATE_MS`, with
`d = 10 / portTICK_RATE_MS`, the delays before the first, second and third
send attempt (as far as they are made) are `0`, `2 * d` and `4 * d` ticks; they
are all zero exactly when `portTICK_RATE_MS` exceeds 10. -/
theorem retry_delays (portTICK_RATE_MS : Nat) (buf : List Nat) (a : sockaddr_in)
    (sr : Nat → Int) (n : Nat) (hpos : 0 < portTICK_RATE_MS) (hs : strlen buf = some n) :
    delays (send_loop portTICK_RATE_MS buf a sr NOTICE_UDP_RETRY_COUNT 0 0)
      = ([0, 2 * (10 / portTICK_RATE_MS), 4 * (10 / portTICK_RATE_MS)]).take (attempts sr) ∧
    (10 / portTICK_RATE_MS = 0 ↔ 10 < portTICK_RATE_MS) := by
  constructor
  · rw [send_loop_three portTICK_RATE_MS buf a sr n hs]
    by_cases h0 : sr 0 ≤ 0
    · simp [delays, attempts, h0]
    · by_cases h1 : sr 1 ≤ 0
      · simp [delays, attempts, h0, h1]
        omega
      · simp [delays, attempts, h0, h1]
        omega
  · rw [Nat.div_eq_zero_iff hpos]

theorem retry_delays_witness :
    delays (send_loop 1 [65, 0] ⟨1, 2⟩ (fun _ => 1) NOTICE_UDP_RETRY_COUNT 0 0) = [0, 20, 40] :=
  (retry_delays 1 [65, 0] ⟨1, 2⟩ (fun _ => 1) 1 (by decide) (by decide)).1.trans (by decide)

/-! ## C9 -/

/-- C9, as the claim states it, fails for a datagram that does not match: after
the five bytes `hello` the pass makes no `vTaskDelay` call, and in the task the
next `recvfrom` follows the first directly. -/
theorem no_sleep_after_mismatch :
    delays (notice_udp_pass 10 10 (fun _ => 0)
      (udp_datagram [104, 101, 108, 108, 111] ⟨1, 2⟩ (fun _ => 31))) = [] ∧
    notice_udp_task 10 10 (fun _ => 0)
      [udp_datagram [104, 101, 108, 108, 111] ⟨1, 2⟩ (fun _ => 31), udp_nothing (-1)]
      = [UdpEv.recvfrom 5, UdpEv.recvfrom (-1), UdpEv.vTaskDelay 20] := by
  set_option maxRecDepth 100000 in decide

/-- C9, amended: a pass of the main loop ends with the sleep
`vTaskDelay(200 / portTICK_PERIOD_MS)` when `recvfrom` returns no data and when
the datagram is accepted, whatever the results of the send attempts. -/
theorem sleep_after_pass (r1 r2 : Nat) (m : Fin 6 → Fin 256) :
    (∀ inp : UdpInput, inp.ret ≤ 0 →
      notice_udp_pass r1 r2 m inp = [UdpEv.recvfrom inp.ret, UdpEv.vTaskDelay (200 / r2)]) ∧
    (∀ (p : List Nat) (a : sockaddr_in) (sr : Nat → Int), 1 ≤ p.length → p.length ≤ 64 →
      accepted p →
      (notice_udp_pass r1 r2 m (udp_datagram p a sr)).getLast?
        = some (UdpEv.vTaskDelay (200 / r2))) := by
  refine ⟨?_, ?_⟩
  · intro inp h
    have h' : ¬ inp.ret > 0 := by omega
    simp [notice_udp_pass, h']
  · intro p a sr h1 h64 ha
    obtain ⟨buf, _, _, hrun⟩ := udp_pass_accepted r1 r2 m p a sr h1 h64 ha
    rw [hrun, ← List.cons_append, List.getLast?_append]
    simp

set_option maxRecDepth 100000 in
theorem sleep_after_pass_witness :
    notice_udp_pass 10 10 (fun _ => 0) (udp_nothing (-1))
      = [UdpEv.recvfrom (-1), UdpEv.vTaskDelay 20] ∧
    (notice_udp_pass 10 10 (fun _ => 0) (udp_datagram challenge ⟨1, 2⟩ (fun _ => -1))).getLast?
      = some (UdpEv.vTaskDelay 20) :=
  ⟨(sleep_after_pass 10 10 (fun _ => 0)).1 (udp_nothing (-1)) (by decide),
    (sleep_after_pass 10 10 (fun _ => 0)).2 challenge ⟨1, 2⟩ (fun _ => -1) (by decide)
      (by decide) (Or.inl rfl)⟩

/-! ## C6 -/

theorem server_create_returns_first_socket (s b o : Int) (rest : List Int) (hs : 0 ≤ s) :
    notice_udp_server_create (s :: b :: o :: rest)
      = ([SetupEv.socket s, SetupEv.bind s b, SetupEv.setsockopt s o], some s) := by
  have h : ¬ s < 0 := by omega
  simp [notice_udp_server_create, h]

/-- C6, evaluated where the claim fails: `socket` returns 3 and `bind` returns
-1 (or `setsockopt` does): `notice_udp_server_create` returns descriptor 3 from
that very attempt, without closing the socket and without a second attempt. -/
theorem descriptor_returned_after_failed_bind :
    notice_udp_server_create [3, -1, 0]
      = ([SetupEv.socket 3, SetupEv.bind 3 (-1), SetupEv.setsockopt 3 0], some 3) ∧
    notice_udp_server_create [3, 0, -1]
      = ([SetupEv.socket 3, SetupEv.bind 3 0, SetupEv.setsockopt 3 (-1)], some 3) := by
  decide

/-! ## C7 -/

theorem calls_ok_append (l1 : List SockEv) :
    ∀ (g : Observed) (l2 : List SockEv),
      calls_ok g (l1 ++ l2) ↔ calls_ok g l1 ∧ calls_ok (observed_after g l1) l2 := by
  induction l1 with
  | nil => intro g l2; simp [calls_ok, observed_after]
  | cons e l1 ih => intro g l2; simp [calls_ok, observed_after, ih, and_assoc]

theorem observed_after_append (l1 : List SockEv) :
    ∀ (g : Observed) (l2 : List SockEv),
      observed_after g (l1 ++ l2) = observed_after (observed_after g l1) l2 := by
  induction l1 with
  | nil => intro g l2; rfl
  | cons e l1 ih => intro g l2; simp [observed_after, ih]

theorem calls_ok_at (pre : List SockEv) (e : SockEv) (post : List SockEv) (g : Observed)
    (h : calls_ok g (pre ++ e :: post)) : call_ok (observed_after g pre) e := by
  rw [calls_ok_append] at h
  exact h.2.1

theorem step_tied (s : Listener) (g : Observed) (r : Int) (h : tied s g) :
    calls_ok g (tcp_server_step s r).2 ∧
      tied (tcp_server_step s r).1 (observed_after g (tcp_server_step s r).2) := by
  obtain ⟨pending, ls⟩ := s
  obtain ⟨o, st, last⟩ := g
  cases pending
  · simp only [tied] at h
    subst h
    by_cases hr : r < 0
    · have hr' : ¬ 0 ≤ r := by omega
      by_cases h1 : r = -1
      · simp [tcp_server_step, hr, hr', retry, h1, calls_ok, call_ok, observe, observed_after,
          tied, stage_after]
      · simp [tcp_server_step, hr, hr', retry, h1, calls_ok, call_ok, observe, observed_after,
          tied, stage_after]
    · have hr' : 0 ≤ r := by omega
      simp [tcp_server_step, hr, hr', calls_ok, call_ok, observe, observed_after,
          tied, stage_after]
  · simp only [tied] at h
    obtain ⟨ho, hst, hls⟩ := h
    subst ho hst
    have hne : ¬ ls = -1 := by omega
    by_cases hr : r < 0
    · simp [tcp_server_step, hr, retry, hne, calls_ok, call_ok, observe, observed_after,
        tied, stage_after, Stage.sock]
    · simp [tcp_server_step, hr, hls, calls_ok, call_ok, observe, observed_after,
        tied, stage_after, Stage.sock]
  · simp only [tied] at h
    obtain ⟨ho, hst, hls⟩ := h
    subst ho hst
    have hne : ¬ ls = -1 := by omega
    by_cases hr : r = 0
    · simp [tcp_server_step, hr, hls, calls_ok, call_ok, observe, observed_after,
        tied, stage_after, Stage.sock]
    · simp [tcp_server_step, hr, retry, hne, calls_ok, call_ok, observe, observed_after,
        tied, stage_after, Stage.sock]
  · simp only [tied] at h
    obtain ⟨ho, hst, hls⟩ := h
    subst ho hst
    have hne : ¬ ls = -1 := by omega
    by_cases hr : r = 0
    · simp [tcp_server_step, hr, hls, calls_ok, call_ok, observe, observed_after,
        tied, stage_after, Stage.sock]
    · simp [tcp_server_step, hr, retry, hne, calls_ok, call_ok, observe, observed_after,
        tied, stage_after, Stage.sock]
  · simp only [tied] at h
    obtain ⟨ho, hst, hls⟩ := h
    subst ho hst
    have hne : ¬ ls = -1 := by omega
    by_cases hr : r < 0
    · have hlr : ¬ ls = r := by omega
      have hrl : ¬ r = ls := by omega
      simp [tcp_server_step, hr, retry, hne, hlr, hrl, calls_ok, call_ok, observe,
        observed_after, tied, stage_after, Stage.sock]
    · simp [tcp_server_step, hr, hls, calls_ok, call_ok, observe, observed_after,
        tied, stage_after, Stage.sock]

theorem run_calls_ok (results : List Int) :
    ∀ (s : Listener) (g : Observed), tied s g → calls_ok g (tcp_server_run s results) := by
  induction results with
  | nil => intro s g _; simp [tcp_server_run, calls_ok]
  | cons r rest ih =>
    intro s g h
    obtain ⟨h1, h2⟩ := step_tied s g r h
    rw [tcp_server_run, calls_ok_append]
    exact ⟨h1, ih _ _ h2⟩

theorem step_calls (s : Listener) (r : Int) : calls (tcp_server_step s r).2 = 1 := by
  obtain ⟨pending, ls⟩ := s
  cases pending <;> simp only [tcp_server_step, retry] <;> split <;> try split
  all_goals simp [calls]

theorem calls_append (l1 l2 : List SockEv) : calls (l1 ++ l2) = calls l1 + calls l2 := by
  induction l1 with
  | nil => simp [calls]
  | cons e l1 ih => cases e <;> simp [calls, ih] <;> omega

theorem run_calls (results : List Int) :
    ∀ s : Listener, calls (tcp_server_run s results) = results.length := by
  induction results with
  | nil => intro s; simp [tcp_server_run, calls]
  | cons r rest ih =>
    intro s
    rw [tcp_server_run, calls_append, step_calls, ih]
    simp only [List.length_cons]
    omega

theorem state_append (l1 : List Int) :
    ∀ (s : Listener) (l2 : List Int),
      tcp_server_state s (l1 ++ l2) = tcp_server_state (tcp_server_state s l1) l2 := by
  induction l1 with
  | nil => intro s l2; rfl
  | cons r l1 ih => intro s l2; simp [tcp_server_state, ih]

theorem step_failed (s : Listener) (r : Int) (h : failed s.pending r) :
    (tcp_server_step s r).1.pending = Pending.socket := by
  obtain ⟨pending, ls⟩ := s
  cases pending <;> simp only [failed] at h <;> simp [tcp_server_step, h]

theorem step_succeeded (s : Listener) (r : Int) (h : ¬ failed s.pending r) :
    (tcp_server_step s r).1.pending ≠ Pending.socket := by
  obtain ⟨pending, ls⟩ := s
  cases pending <;> simp only [failed] at h <;> simp [tcp_server_step, h]

/-- C7: for every sequence of results of the calls of `tcp_server_task`:
at every call of the trace at most one listening socket is open; `socket` is
only called when none is open, and a listening socket is closed right after it
was shut down; `accept` is only called on the socket for which `socket`,
`setsockopt`, `bind` and `listen` succeeded in the latest setup attempt; a
failed `socket`, `setsockopt`, `bind`, `listen` or `accept` is followed by
`socket` as the next call; and the task never stops: it makes one call for
every result it is given. -/
theorem listener_invariants (results : List Int) :
    (∀ pre e post, tcp_server_task results = pre ++ e :: post →
      (observed_after nothing_observed (pre ++ [e])).open_socks.length ≤ 1 ∧
      (∀ r, e = SockEv.socket r → (observed_after nothing_observed pre).open_socks = []) ∧
      (∀ s r, e = SockEv.accept s r →
        (observed_after nothing_observed pre).stage = Stage.listening s) ∧
      (∀ s, e = SockEv.close s → s ∈ (observed_after nothing_observed pre).open_socks →
        (observed_after nothing_observed pre).last = some (SockEv.shutdown s))) ∧
    (∀ r, failed (tcp_server_state ⟨Pending.socket, -1⟩ results).pending r →
      (tcp_server_state ⟨Pending.socket, -1⟩ (results ++ [r])).pending = Pending.socket) ∧
    calls (tcp_server_task results) = results.length := by
  refine ⟨?_, ?_, run_calls results _⟩
  · intro pre e post hsplit
    have hall : calls_ok nothing_observed (tcp_server_task results) :=
      run_calls_ok results ⟨Pending.socket, -1⟩ nothing_observed (by simp [tied, nothing_observed])
    rw [hsplit] at hall
    have h := calls_ok_at pre e post nothing_observed hall
    rw [observed_after_append]
    exact h
  · intro r hf
    rw [state_append]
    exact step_failed _ r hf

theorem listener_invariants_witness :
    calls (tcp_server_task [-1, 3, -1, 4, 0, 0, 0, 7, -1, 5]) = 10 :=
  (listener_invariants [-1, 3, -1, 4, 0, 0, 0, 7, -1, 5]).2.2

end DeviceDiscover
